import Mathlib

/-!
Shallow embedding of the conversational memory manager in
pandasai/helpers/memory.py (class Memory), together with theorems that
check the natural-language specification's claims about it.

Python dicts of shape {"message": ..., "is_user": ...} become the
structure Turn; the Memory object's four attributes become the fields of
the structure Memory.  Python's trailing slice messages[-limit:] on an
arbitrary integer limit is modelled exactly by pyTail.  The external
collaborator parse_qa_doc (from pandasai.helpers.train, outside this
excerpt) is a parameter of the embedding of add_qa_to_memory_for_query,
which returns the object's state after the call together with the
propagated parser error, if any, mirroring in-place mutation followed by
an exception.
-/

/-- One stored conversational entry, mirroring the Python dict with keys
"message" and "is_user". -/
structure Turn where
  message : String
  is_user : Bool
deriving DecidableEq, Repr

/-- State of a Memory object: stored turns, window size, optional system
info and the transient example (QA) context. -/
structure Memory where
  _messages : List Turn
  _memory_size : Int
  _agent_info : Option String
  _qa_context : List Turn
deriving DecidableEq, Repr

/-- Embedding of the constructor: empty message log, given window size,
given agent info, empty QA context. -/
def Memory.init (memory_size : Int) (agent_info : Option String) : Memory :=
  ⟨[], memory_size, agent_info, []⟩

/-- Embedding of Memory.add: append one turn at the end of the log. -/
def Memory.add (st : Memory) (message : String) (is_user : Bool) : Memory :=
  { st with _messages := st._messages ++ [⟨message, is_user⟩] }

/-- Embedding of Memory.count. -/
def Memory.count (st : Memory) : Nat :=
  st._messages.length

/-- Embedding of Memory.all. -/
def Memory.all (st : Memory) : List Turn :=
  st._messages

/-- Embedding of Memory.last; Python raises IndexError on the empty list,
modelled as none. -/
def Memory.last (st : Memory) : Option Turn :=
  st._messages.getLast?

/-- Embedding of the helper named with a leading underscore in the source
that truncates a message to max length characters, appending a space and
an ellipsis when it truncates. -/
def Memory.truncateMsg (message : String) (max_length : Nat) : String :=
  if message.length > max_length then message.take max_length ++ " ..." else message

/-- Python trailing slice l[-limit:] for an arbitrary integer limit.  For
positive limit this keeps the trailing limit elements; for limit zero it
keeps everything (since -0 is 0 and l[0:] is l); for negative limit -k it
drops the first k elements. -/
def pyTail (limit : Int) (l : List α) : List α :=
  if 0 < limit then l.drop (l.length - limit.toNat)
  else l.drop (-limit).toNat

/-- Rendering of one turn inside Memory.get_messages: a header token, a
newline plus space, then the full text for a user turn and the truncated
text for an answer turn. -/
def Memory.render (m : Turn) : String :=
  (if m.is_user then "### QUERY" else "### ANSWER") ++ "\n " ++
    (if m.is_user then m.message else Memory.truncateMsg m.message 100)

/-- Embedding of Memory.get_messages; limit none is the Python default
None, replaced by the memory size. -/
def Memory.get_messages (st : Memory) (limit : Option Int) : List String :=
  (pyTail (limit.getD st._memory_size) st._messages).map Memory.render

/-- Embedding of Memory.get_conversation. -/
def Memory.get_conversation (st : Memory) (limit : Option Int) : String :=
  String.intercalate "\n" (st.get_messages limit)

/-- Embedding of Memory.get_previous_conversation. -/
def Memory.get_previous_conversation (st : Memory) : String :=
  let messages := st.get_messages (some st._memory_size)
  if messages.length ≤ 1 then "" else String.intercalate "\n" messages.dropLast

/-- Embedding of Memory.get_last_message. -/
def Memory.get_last_message (st : Memory) : String :=
  let messages := st.get_messages (some st._memory_size)
  if messages.length = 0 then "" else (messages.getLast?).getD ""

/-- Embedding of Memory.get_system_prompt: returns the agent info
verbatim, which may be absent. -/
def Memory.get_system_prompt (st : Memory) : Option String :=
  st._agent_info

/-- Record shape of to_json output: a role and a field named message. -/
structure RoleMessage where
  role : String
  message : String
deriving DecidableEq, Repr

/-- Record shape of to_openai_messages output: a role and a content. -/
structure ModelMessage where
  role : String
  content : String
deriving DecidableEq, Repr

/-- Embedding of Memory.to_json. -/
def Memory.to_json (st : Memory) : List RoleMessage :=
  st.all.map fun m => ⟨if m.is_user then "user" else "assistant", m.message⟩

/-- Mapping applied to each turn in the loop of to_openai_messages. -/
def openaiTurn (m : Turn) : ModelMessage :=
  ⟨if m.is_user then "user" else "assistant", m.message⟩

/-- Embedding of Memory.to_openai_messages.  The Python guard is the
truthiness test on agent_info, so an absent or empty string yields no
system record. -/
def Memory.to_openai_messages (st : Memory) : List ModelMessage :=
  (match st._agent_info with
    | none => []
    | some s => if s = "" then [] else [⟨"system", s⟩])
  ++ (st._qa_context ++ st._messages).map openaiTurn

/-- Loop of add_qa_to_memory_for_query, starting from the freshly cleared
context: parse each document in order, appending its question turn and
answer turn; on the first parser failure stop, keeping the pairs built so
far and the error. -/
def qa_pairs {ε : Type} (parse : String → Except ε (String × String)) :
    List String → List Turn × Option ε
  | [] => ([], none)
  | d :: ds =>
    match parse d with
    | .error e => ([], some e)
    | .ok (q, a) =>
      let r := qa_pairs parse ds
      (⟨q, true⟩ :: ⟨a, false⟩ :: r.1, r.2)

/-- Embedding of Memory.add_qa_to_memory_for_query, parameterised by the
external parser parse_qa_doc.  The method first clears the QA context and
then appends pairs document by document, so the first component is the
object's state after the call (even when the parser raised) and the
second component is the propagated error, if any. -/
def Memory.add_qa_to_memory_for_query {ε : Type}
    (parse : String → Except ε (String × String))
    (st : Memory) (qa_docs : List String) : Memory × Option ε :=
  let r := qa_pairs parse qa_docs
  ({ st with _qa_context := r.1 }, r.2)

/-- Embedding of Memory.clear: empties the message log only. -/
def Memory.clear (st : Memory) : Memory :=
  { st with _messages := [] }

/-- Embedding of the size property. -/
def Memory.size (st : Memory) : Int :=
  st._memory_size

/-- Embedding of the agent_info property. -/
def Memory.agent_info (st : Memory) : Option String :=
  st._agent_info

/-- C5: last() fails (returns none, modelling the IndexError OutOfRange
condition) exactly when the turn log is empty, and on a log that just
received an add call it returns precisely that call's message text and
user flag; the state is a pure argument here, so no mutation occurs. -/
theorem last_outofrange_iff_empty (st : Memory) :
    (st.last = none ↔ st._messages = []) ∧
    (∀ (m : String) (u : Bool), (st.add m u).last = some ⟨m, u⟩) := by
  constructor
  · simp [Memory.last, List.getLast?_eq_none_iff]
  · intro m u
    simp [Memory.last, Memory.add]

/-- C7: clear() empties the turn log, so count() is 0 afterwards, while
the system prompt, the QA context and the window size keep their exact
previous values. -/
theorem clear_frame (st : Memory) :
    (st.clear).count = 0 ∧
    (st.clear).get_system_prompt = st.get_system_prompt ∧
    (st.clear)._qa_context = st._qa_context ∧
    (st.clear)._memory_size = st._memory_size ∧
    (st.clear)._agent_info = st._agent_info := by
  simp [Memory.clear, Memory.count, Memory.get_system_prompt]

/-- C8: to_json maps every stored turn of the full, unwindowed log in
insertion order to a record with role user for user turns and assistant
otherwise, the untruncated text in the field named message, one record
per turn, never a system record, never an example turn. -/
theorem to_json_generic_role_list (st : Memory) :
    st.to_json = st._messages.map
      (fun m => RoleMessage.mk (if m.is_user then "user" else "assistant") m.message) ∧
    st.to_json.length = st.count ∧
    (∀ e ∈ st.to_json, e.role ≠ "system") := by
  refine ⟨rfl, by simp [Memory.to_json, Memory.all, Memory.count], ?_⟩
  intro e he
  simp only [Memory.to_json, Memory.all, List.mem_map] at he
  obtain ⟨m, _, rfl⟩ := he
  by_cases h : m.is_user <;> simp [h]

/-- C3: inside get_messages every turn is displayed by render, and render
obeys the truncation rule: a user turn shows its full text after the
QUERY header; an answer turn of at most 100 characters shows its full
text after the ANSWER header; a longer answer turn shows exactly its
first 100 characters followed by the ellipsis marker. -/
theorem get_messages_truncation_rule (st : Memory) (limit : Option Int) :
    st.get_messages limit =
      (pyTail (limit.getD st._memory_size) st._messages).map Memory.render ∧
    ∀ m : Turn, Memory.render m =
      if m.is_user then "### QUERY\n " ++ m.message
      else if m.message.length ≤ 100 then "### ANSWER\n " ++ m.message
      else "### ANSWER\n " ++ (m.message.take 100 ++ " ...") := by
  have hq : ("### QUERY" : String) ++ "\n " = "### QUERY\n " := rfl
  have ha : ("### ANSWER" : String) ++ "\n " = "### ANSWER\n " := rfl
  refine ⟨rfl, ?_⟩
  intro m
  by_cases h : m.is_user
  · rw [if_pos h]
    simp [Memory.render, h, ← hq, String.append_assoc]
  · rw [if_neg h]
    by_cases hl : m.message.length ≤ 100
    · rw [if_pos hl]
      simp [Memory.render, h, Memory.truncateMsg, Nat.not_lt.mpr hl, ← ha,
        String.append_assoc]
    · rw [if_neg hl]
      simp [Memory.render, h, Memory.truncateMsg, Nat.lt_of_not_le hl, ← ha,
        String.append_assoc]

/-- C9: with a non-empty log, an explicit limit of 0 makes get_messages
render the whole log (the slice with index -0 is the whole list), and a
negative limit -k renders every turn except the first k. -/
theorem get_messages_zero_and_negative_limit (st : Memory) (k : Nat)
    (h : st._messages ≠ []) :
    st.get_messages (some 0) = st._messages.map Memory.render ∧
    st.get_messages (some 0) ≠ [] ∧
    st.get_messages (some (-(k : Int))) = (st._messages.drop k).map Memory.render := by
  refine ⟨?_, ?_, ?_⟩
  · simp [Memory.get_messages, pyTail]
  · simp [Memory.get_messages, pyTail, h]
  · have hk : ¬ ((0 : Int) < -(k : Int)) := by omega
    simp [Memory.get_messages, pyTail, hk]

/-- C9 witness: a concrete two-turn memory where limit 0 renders both
turns and limit -1 drops the first turn. -/
theorem get_messages_zero_and_negative_limit_witness :
    (((Memory.init 1 none).add "q1" true).add "a1" false)._messages ≠ [] ∧
    ((((Memory.init 1 none).add "q1" true).add "a1" false).get_messages (some 0) =
      ((((Memory.init 1 none).add "q1" true).add "a1" false))._messages.map Memory.render ∧
    (((Memory.init 1 none).add "q1" true).add "a1" false).get_messages (some 0) ≠ [] ∧
    (((Memory.init 1 none).add "q1" true).add "a1" false).get_messages (some (-(1 : Nat) : Int)) =
      (((((Memory.init 1 none).add "q1" true).add "a1" false))._messages.drop 1).map Memory.render) :=
  ⟨by decide,
   get_messages_zero_and_negative_limit (((Memory.init 1 none).add "q1" true).add "a1" false) 1
     (by decide)⟩

/-- C4 counterexample: with one stored turn, the explicitly supplied
limit 0 does not bound get_messages by 0 entries; the call returns one
rendered entry, because the Python slice with index -0 is the whole
list. -/
theorem get_messages_limit_zero_counterexample :
    ¬ ((((Memory.init 1 none).add "hi" true).get_messages (some 0)).length ≤ 0) := by
  decide

/-- C4 amended: for every explicitly supplied limit n that is at least 1,
get_messages returns at most n entries, namely the renderings of the
trailing n (or fewer) stored turns in their original order; with no limit
supplied the effective limit is the configured window size, and on an
empty log the result is empty. -/
theorem get_messages_windowed (st : Memory) (n : Int) (hn : 1 ≤ n) :
    (st.get_messages (some n)).length ≤ n.toNat ∧
    st.get_messages (some n) =
      (st._messages.drop (st._messages.length - n.toNat)).map Memory.render ∧
    st.get_messages none = st.get_messages (some st._memory_size) ∧
    (st._messages = [] → st.get_messages (some n) = []) := by
  have h0 : (0 : Int) < n := by omega
  refine ⟨?_, ?_, rfl, ?_⟩
  · simp only [Memory.get_messages, pyTail, Option.getD_some, if_pos h0,
      List.length_map, List.length_drop]
    omega
  · simp [Memory.get_messages, pyTail, h0]
  · intro h
    simp [Memory.get_messages, pyTail, h]

/-- C4 witness: with three stored turns and limit 2, the window keeps the
trailing two renderings. -/
theorem get_messages_windowed_witness :
    (1 : Int) ≤ 2 ∧
    (((((Memory.init 1 none).add "q1" true).add "a1" false).add "q2" true).get_messages
        (some 2)).length ≤ (2 : Int).toNat ∧
    ((((Memory.init 1 none).add "q1" true).add "a1" false).add "q2" true).get_messages
        (some 2) =
      (((((Memory.init 1 none).add "q1" true).add "a1" false).add "q2" true)._messages.drop
        (((((Memory.init 1 none).add "q1" true).add "a1" false).add "q2" true)._messages.length -
          (2 : Int).toNat)).map Memory.render ∧
    ((((Memory.init 1 none).add "q1" true).add "a1" false).add "q2" true).get_messages none =
      ((((Memory.init 1 none).add "q1" true).add "a1" false).add "q2" true).get_messages
        (some ((((Memory.init 1 none).add "q1" true).add "a1" false).add "q2" true)._memory_size) ∧
    (((((Memory.init 1 none).add "q1" true).add "a1" false).add "q2" true)._messages = [] →
      ((((Memory.init 1 none).add "q1" true).add "a1" false).add "q2" true).get_messages
        (some 2) = []) :=
  ⟨by decide,
   get_messages_windowed ((((Memory.init 1 none).add "q1" true).add "a1" false).add "q2" true) 2
     (by decide)⟩

/-- Helper: the accumulator loop of String.intercalate distributes over
appending one final element. -/
lemma intercalate_go_concat (s x : String) :
    ∀ (l : List String) (acc : String),
      String.intercalate.go acc s (l ++ [x]) =
        String.intercalate.go acc s l ++ s ++ x := by
  intro l
  induction l with
  | nil => intro acc; simp [String.intercalate.go]
  | cons a as ih => intro acc; simp [String.intercalate.go, ih]

/-- Helper: intercalating a non-empty list extended by one element equals
the intercalation of the list, the separator, then the element. -/
lemma intercalate_concat (s x : String) (l : List String) (h : l ≠ []) :
    String.intercalate s (l ++ [x]) = String.intercalate s l ++ s ++ x := by
  match l with
  | [] => exact absurd rfl h
  | a :: as => simp [String.intercalate, intercalate_go_concat]

/-- C6: get_previous_conversation is empty when the window of size
windowSize holds at most one rendered entry; otherwise it is that window
joined by newlines with its final entry removed, and the windowed
conversation text splits as previous conversation, a newline, then the
last rendered entry. -/
theorem get_previous_conversation_spec (st : Memory) :
    ((st.get_messages (some st._memory_size)).length ≤ 1 →
      st.get_previous_conversation = "") ∧
    (1 < (st.get_messages (some st._memory_size)).length →
      st.get_previous_conversation =
        String.intercalate "\n" (st.get_messages (some st._memory_size)).dropLast ∧
      st.get_conversation (some st._memory_size) =
        st.get_previous_conversation ++ "\n" ++
          ((st.get_messages (some st._memory_size)).getLast?).getD "") := by
  constructor
  · intro h
    simp only [Memory.get_previous_conversation]
    rw [if_pos h]
  · intro h
    have hne : st.get_messages (some st._memory_size) ≠ [] := by
      intro hL
      rw [hL] at h
      simp at h
    have hprev : st.get_previous_conversation =
        String.intercalate "\n" (st.get_messages (some st._memory_size)).dropLast := by
      simp only [Memory.get_previous_conversation]
      rw [if_neg (by omega)]
    refine ⟨hprev, ?_⟩
    obtain ⟨front, lastE, hL⟩ :
        ∃ front lastE, st.get_messages (some st._memory_size) = front ++ [lastE] := by
      rcases List.eq_nil_or_concat (st.get_messages (some st._memory_size)) with h0 | hc
      · exact absurd h0 hne
      · obtain ⟨L, b, hb⟩ := hc
        exact ⟨L, b, by simpa [List.concat_eq_append] using hb⟩
    have hfront : front ≠ [] := by
      intro hc
      rw [hL, hc] at h
      simp at h
    rw [hprev]
    simp only [Memory.get_conversation, hL, List.dropLast_concat, List.getLast?_concat,
      Option.getD_some]
    exact intercalate_concat _ _ _ hfront

/-- Helper: every record produced from a turn by the loop of
to_openai_messages carries role user or assistant, never system. -/
lemma openaiTurn_role_ne_system (m : Turn) : (openaiTurn m).role ≠ "system" := by
  by_cases h : m.is_user <;> simp [openaiTurn, h]

/-- C2 counterexample: systemInfo set to the empty string is set, yet the
record at index 0 of to_openai_messages is the user turn, not a system
record; no system record appears at all, because the Python guard tests
truthiness. -/
theorem to_openai_empty_system_counterexample :
    ((Memory.init 1 (some "")).add "q" true)._agent_info = some "" ∧
    ((Memory.init 1 (some "")).add "q" true).to_openai_messages.head? =
      some ⟨"user", "q"⟩ ∧
    ∀ e ∈ ((Memory.init 1 (some "")).add "q" true).to_openai_messages,
      e.role ≠ "system" := by
  refine ⟨rfl, rfl, ?_⟩
  decide

/-- C2 amended: whenever systemInfo is set to a non-empty string, index 0
of to_openai_messages is the system record carrying it, followed by
exactly the example turns' records in stored order, followed by exactly
the full unwindowed turn log's records in stored order, user turns as
role user and the rest as role assistant, with the untruncated text as
content. -/
theorem to_openai_messages_ordering (st : Memory) (s : String)
    (hset : st._agent_info = some s) (hne : s ≠ "") :
    st.to_openai_messages =
      ModelMessage.mk "system" s ::
        (st._qa_context.map openaiTurn ++ st._messages.map openaiTurn) := by
  simp [Memory.to_openai_messages, hset, hne]

/-- C2 witness: a memory with system info, one example pair and one live
turn produces the system record first, then the example records, then
the turn record. -/
theorem to_openai_messages_ordering_witness :
    (⟨[⟨"q2", true⟩], 1, some "sys", [⟨"eq", true⟩, ⟨"ea", false⟩]⟩ : Memory)._agent_info =
      some "sys" ∧
    ("sys" : String) ≠ "" ∧
    (⟨[⟨"q2", true⟩], 1, some "sys", [⟨"eq", true⟩, ⟨"ea", false⟩]⟩ : Memory).to_openai_messages =
      ModelMessage.mk "system" "sys" ::
        ((⟨[⟨"q2", true⟩], 1, some "sys", [⟨"eq", true⟩, ⟨"ea", false⟩]⟩ : Memory)._qa_context.map
            openaiTurn ++
          (⟨[⟨"q2", true⟩], 1, some "sys", [⟨"eq", true⟩, ⟨"ea", false⟩]⟩ : Memory)._messages.map
            openaiTurn) :=
  ⟨rfl, by decide,
   to_openai_messages_ordering
     (⟨[⟨"q2", true⟩], 1, some "sys", [⟨"eq", true⟩, ⟨"ea", false⟩]⟩ : Memory) "sys" rfl
     (by decide)⟩

/-- C10: get_system_prompt returns the stored agent info verbatim, and
to_openai_messages contains a system record exactly when the agent info
is a non-empty string; in particular an agent info that is absent or the
empty string yields only the example and turn records even though
get_system_prompt still reports the stored value. -/
theorem to_openai_system_record_iff_truthy (st : Memory) :
    st.get_system_prompt = st._agent_info ∧
    ((∃ s, st._agent_info = some s ∧ s ≠ "") ↔
      ∃ e ∈ st.to_openai_messages, e.role = "system") ∧
    (st._agent_info = some "" →
      st.to_openai_messages = (st._qa_context ++ st._messages).map openaiTurn ∧
      st.get_system_prompt = some "") ∧
    (st._agent_info = none →
      st.to_openai_messages = (st._qa_context ++ st._messages).map openaiTurn ∧
      st.get_system_prompt = none) := by
  refine ⟨rfl, ?_, ?_, ?_⟩
  · constructor
    · rintro ⟨s, hs, hne⟩
      exact ⟨⟨"system", s⟩, by simp [Memory.to_openai_messages, hs, hne], rfl⟩
    · rintro ⟨e, he, hrole⟩
      cases hinfo : st._agent_info with
      | none =>
        rw [Memory.to_openai_messages, hinfo] at he
        simp only [List.nil_append, List.mem_map] at he
        obtain ⟨m, _, rfl⟩ := he
        exact absurd hrole (openaiTurn_role_ne_system m)
      | some s =>
        by_cases hne : s = ""
        · rw [Memory.to_openai_messages, hinfo] at he
          simp only [hne, if_pos rfl, List.nil_append, List.mem_map, if_true] at he
          obtain ⟨m, _, rfl⟩ := he
          exact absurd hrole (openaiTurn_role_ne_system m)
        · exact ⟨s, rfl, hne⟩
  · intro hinfo
    exact ⟨by simp [Memory.to_openai_messages, hinfo], by
      simp [Memory.get_system_prompt, hinfo]⟩
  · intro hinfo
    exact ⟨by simp [Memory.to_openai_messages, hinfo], by
      simp [Memory.get_system_prompt, hinfo]⟩

/-- C10 witness: with systemInfo set to the empty string and one stored
turn, to_openai_messages holds only the turn record while
get_system_prompt still returns the empty string. -/
theorem to_openai_system_record_iff_truthy_witness :
    ((Memory.init 2 (some "")).add "hello" true)._agent_info = some "" ∧
    (((Memory.init 2 (some "")).add "hello" true).to_openai_messages =
      ((((Memory.init 2 (some "")).add "hello" true))._qa_context ++
        (((Memory.init 2 (some "")).add "hello" true))._messages).map openaiTurn ∧
    ((Memory.init 2 (some "")).add "hello" true).get_system_prompt = some "") :=
  ⟨rfl,
   (to_openai_system_record_iff_truthy ((Memory.init 2 (some "")).add "hello" true)).2.2.1 rfl⟩

/-- Boolean test that a parse result is a success. -/
def parsedOk {ε : Type} : Except ε (String × String) → Bool
  | .ok _ => true
  | .error _ => false

/-- Question/answer turn pairs produced from a list of documents that all
parse successfully. -/
def okPairs {ε : Type} (parse : String → Except ε (String × String)) :
    List String → List Turn
  | [] => []
  | d :: ds =>
    (match parse d with
      | .ok (q, a) => [⟨q, true⟩, ⟨a, false⟩]
      | .error _ => []) ++ okPairs parse ds

/-- Concrete parser used for the C1 scenarios: fails exactly on the
document BAD and otherwise returns the document as both question and
answer. -/
def exParse : String → Except Unit (String × String) :=
  fun d => if d = "BAD" then .error () else .ok (d, d)

/-- Concrete pre-state for the C1 scenarios: a prior example set of one
question/answer pair. -/
def memWithOldExamples : Memory :=
  ⟨[], 1, none, [⟨"old_q", true⟩, ⟨"old_a", false⟩]⟩

/-- Helper: running the QA loop on a block of successfully parsing
documents followed by a failing one yields the pairs of the successful
prefix together with the error. -/
lemma qa_pairs_append_error {ε : Type} (parse : String → Except ε (String × String))
    (bad : String) (e : ε) (rest : List String) :
    ∀ goods : List String, (∀ d ∈ goods, parsedOk (parse d) = true) →
      parse bad = .error e →
      qa_pairs parse (goods ++ bad :: rest) = (okPairs parse goods, some e) := by
  intro goods
  induction goods with
  | nil =>
    intro _ hbad
    simp [qa_pairs, okPairs, hbad]
  | cons g gs ih =>
    intro hgoods hbad
    have hg : parsedOk (parse g) = true := hgoods g (by simp)
    obtain ⟨q, a, hqa⟩ : ∃ q a, parse g = .ok (q, a) := by
      cases hp : parse g with
      | ok p => exact ⟨p.1, p.2, rfl⟩
      | error e2 => rw [hp] at hg; simp [parsedOk] at hg
    have htail := ih (fun d hd => hgoods d (by simp [hd])) hbad
    simp [qa_pairs, okPairs, hqa, htail]

/-- C1 counterexample: for the pre-state holding one prior example pair
and three documents whose second one fails to parse, the failed refresh
call propagates the error but leaves the QA context holding the pairs of
the first document, not the pre-call example set. -/
theorem add_qa_failure_counterexample :
    ((memWithOldExamples.add_qa_to_memory_for_query exParse
        ["good", "BAD", "x"]).2).isSome = true ∧
    (memWithOldExamples.add_qa_to_memory_for_query exParse
        ["good", "BAD", "x"]).1._qa_context ≠ memWithOldExamples._qa_context := by
  decide

/-- C1 amended: when the parser succeeds on every document of a prefix
and fails on the next document, refreshExamples propagates that error to
the caller, but the QA context is left holding exactly the pairs of the
successfully parsed prefix: the pre-call example set is discarded at the
start of the call, so a failing refresh does replace it partially. -/
theorem add_qa_failure_keeps_parsed_prefix {ε : Type}
    (parse : String → Except ε (String × String)) (st : Memory)
    (goods : List String) (bad : String) (rest : List String) (e : ε)
    (hgoods : ∀ d ∈ goods, parsedOk (parse d) = true)
    (hbad : parse bad = .error e) :
    st.add_qa_to_memory_for_query parse (goods ++ bad :: rest) =
      ({ st with _qa_context := okPairs parse goods }, some e) := by
  simp [Memory.add_qa_to_memory_for_query,
    qa_pairs_append_error parse bad e rest goods hgoods hbad]

/-- C1 witness: the amended statement evaluated at the concrete scenario
of the counterexample, where the surviving context is the pair made from
the first document. -/
theorem add_qa_failure_keeps_parsed_prefix_witness :
    (∀ d ∈ ["good"], parsedOk (exParse d) = true) ∧
    exParse "BAD" = .error () ∧
    memWithOldExamples.add_qa_to_memory_for_query exParse (["good"] ++ "BAD" :: ["x"]) =
      ({ memWithOldExamples with _qa_context := okPairs exParse ["good"] }, some ()) :=
  ⟨by decide, rfl,
   add_qa_failure_keeps_parsed_prefix exParse memWithOldExamples ["good"] "BAD" ["x"] ()
     (by decide) rfl⟩

/-- C6 witness: with window size 2 and two stored turns, the previous
conversation is the window minus its last entry, and the windowed
conversation splits as previous, newline, last entry. -/
theorem get_previous_conversation_spec_witness :
    1 < ((((Memory.init 2 none).add "q1" true).add "q2" true).get_messages
        (some ((((Memory.init 2 none).add "q1" true).add "q2" true))._memory_size)).length ∧
    (((((Memory.init 2 none).add "q1" true).add "q2" true).get_previous_conversation =
      String.intercalate "\n"
        (((((Memory.init 2 none).add "q1" true).add "q2" true).get_messages
          (some ((((Memory.init 2 none).add "q1" true).add "q2" true))._memory_size)).dropLast)) ∧
    ((((Memory.init 2 none).add "q1" true).add "q2" true).get_conversation
        (some ((((Memory.init 2 none).add "q1" true).add "q2" true))._memory_size) =
      (((Memory.init 2 none).add "q1" true).add "q2" true).get_previous_conversation ++ "\n" ++
        ((((((Memory.init 2 none).add "q1" true).add "q2" true).get_messages
          (some ((((Memory.init 2 none).add "q1" true).add "q2" true))._memory_size)).getLast?).getD ""))) :=
  ⟨by decide,
   (get_previous_conversation_spec (((Memory.init 2 none).add "q1" true).add "q2" true)).2
     (by decide)⟩
